import Mathlib

/-!
Verification of the Cape Town traffic-optimization repository against its
natural-language specification.

The development shallowly embeds the TypeScript frontend sources
(`TrafficDataContext.tsx`, `TrafficMap.tsx`, `RoutePlanner.tsx`,
`TrafficAnalytics.tsx`/`PredictionDashboard`) into Lean: JavaScript numbers
become `ℚ` (and `ℝ` where the spec's exponential appears), JS arrays become
`List`, and the React state update of the traffic context becomes an explicit
list transformer.  The route-search backend referenced by the spec is not part
of the repository sources; the definitions in the `Engine` namespace are
modelled from the specification text and are marked as such.
-/

/-- One traffic reading as stored by `TrafficDataContext.tsx` (the `TrafficData`
interface): segment key, coordinates, flow speed, congestion level and the
timestamp (the ISO string embedded as a rational time instant). -/
structure TrafficData where
  road_segment_id : String
  latitude : ℚ
  longitude : ℚ
  flow_speed : ℚ
  congestion_level : ℚ
  timestamp : ℚ
deriving DecidableEq, Repr

/-- JavaScript `Array.prototype.findIndex` restricted to a successful result:
first index satisfying the predicate, `none` when the JS call returns `-1`. -/
def findIndex (p : α → Bool) : List α → Option ℕ
  | [] => none
  | x :: xs => if p x then some 0 else (findIndex p xs).map (· + 1)

/-- `updateTrafficPoint` from `TrafficDataContext.tsx`: look up the first entry
with the incoming point's `road_segment_id`; if found, overwrite that slot with
the point, otherwise append the point at the end. -/
def updateTrafficPoint (prev : List TrafficData) (point : TrafficData) : List TrafficData :=
  match findIndex (fun p => p.road_segment_id == point.road_segment_id) prev with
  | some index => prev.set index point
  | none => prev ++ [point]

/-- Reading an entry's congestion value out of the context state at a given
instant.  The `now` argument is what a snapshot-time read would depend on; the
code reads `trafficData` directly, so the result does not use it. -/
def observedCongestion (store : List TrafficData) (now : ℚ) (seg : String) : Option ℚ :=
  ((store.find? (fun p => p.road_segment_id == seg)).map (fun p => p.congestion_level))

namespace TrafficMap

/-- `getTrafficColor` from `TrafficMap.tsx`: marker colour from a point's
congestion level, thresholds 0.3 and 0.6. -/
def getTrafficColor (congestionLevel : ℚ) : String :=
  if congestionLevel < 0.3 then "#4CAF50"
  else if congestionLevel < 0.6 then "#FF9800"
  else "#F44336"

end TrafficMap

namespace RoutePlanner

/-- `getTrafficColor` from `RoutePlanner.tsx`: colour for the route's
`traffic_conditions` string as delivered by the backend; any other value
(including `undefined`, embedded as `none`) falls to the default grey. -/
def getTrafficColor (condition : Option String) : String :=
  match condition with
  | some "light" => "#4CAF50"
  | some "moderate" => "#FF9800"
  | some "heavy" => "#F44336"
  | _ => "#757575"

/-- JavaScript `Math.round` on a finite number: round half toward positive
infinity, i.e. `⌊x + 1/2⌋`. -/
def jsRound (x : ℚ) : ℤ := ⌊x + 1/2⌋

/-- `formatTime` from `RoutePlanner.tsx`.  `Math.floor` on the minute quotient
is `⌊·⌋` of the rational quotient; the JS `%` on the integral minute count
agrees with `Int.emod` on the branch where it is evaluated (minutes ≥ 60). -/
def formatTime (seconds : ℚ) : String :=
  let minutes : ℤ := jsRound (seconds / 60)
  if minutes < 60 then
    toString minutes ++ " min"
  else
    let hours : ℤ := ⌊(minutes : ℚ) / 60⌋
    let remainingMinutes : ℤ := minutes % 60
    toString hours ++ "h " ++ toString remainingMinutes ++ "m"

end RoutePlanner

namespace PredictionDashboard

/-- The congestion clamp inside `generatePredictions` in the predictions
dashboard: `Math.max(0.1, Math.min(0.9, currentCongestion + predictedChange))`. -/
def predictedCongestion (currentCongestion predictedChange : ℚ) : ℚ :=
  max 0.1 (min 0.9 (currentCongestion + predictedChange))

end PredictionDashboard

namespace Engine

/-- Modelled from the spec: a graph node of the Road Network Graph (identifier
plus geographic coordinate), per section 3 of the specification; the backend
implementing it is absent from the repository sources. -/
structure Node where
  id : ℕ
  lat : ℚ
  lng : ℚ
deriving DecidableEq, Repr

/-- Modelled from the spec: a directed road segment with free-flow traversal
cost, rendering length, and a major-road flag consumed by the
`avoid_major_roads` option; the backend implementing it is absent from the
repository sources. -/
structure Edge where
  src : ℕ
  dst : ℕ
  freeFlowCost : ℚ
  length : ℚ
  isMajor : Bool
deriving DecidableEq, Repr

/-- Modelled from the spec: the static road network, immutable after load. -/
structure Graph where
  nodes : List Node
  edges : List Edge
deriving Repr

/-- Modelled from the spec: tunable constants the specification leaves
configurable (half-life, congestion cap, snap distance, alternative-route
penalty, staleness window, major-road avoidance penalty). -/
structure Config where
  halfLife : ℚ
  maxCongestionMultiplier : ℚ
  maxSnapSq : ℚ
  penaltyFactor : ℚ
  staleWindow : ℚ
  avoidPenalty : ℚ
deriving Repr

/-- Modelled from the spec: query-time failure taxonomy of section 7. -/
inductive ErrorReason where
  | unresolvableLocation
  | noRouteFound
  | routeSearchTimeout
deriving DecidableEq, Repr

/-- Modelled from the spec: the typed reason strings of section 7, suitable for
direct display. -/
def reasonText : ErrorReason → String
  | .unresolvableLocation => "location outside coverage area"
  | .noRouteFound => "no drivable path found"
  | .routeSearchTimeout => "search timed out"

/-- Modelled from the spec: a returned route with its per-edge congestion
breakdown at snapshot time. -/
structure Route where
  edgeIds : List ℕ
  totalCost : ℚ
  totalDistance : ℚ
  congestionBreakdown : List (ℕ × ℚ)
deriving DecidableEq, Repr

/-- Modelled from the spec: the result of `PlanRoute` — either a primary route
(with optional alternatives) or a typed error, never an exception. -/
inductive PlanResult where
  | ok (primary : Route) (alternatives : List Route)
  | error (reason : ErrorReason)
deriving DecidableEq, Repr

/-- Modelled from the spec: the external wire shape of a failed or successful
query, the structured value of section 6. -/
structure WireResponse where
  status : String
  reason : Option String
deriving DecidableEq, Repr

/-- Modelled from the spec: errors surface as a structured status/reason
record rather than being thrown across the boundary. -/
def toWire : PlanResult → WireResponse
  | .ok _ _ => { status := "success", reason := none }
  | .error r => { status := "error", reason := some (reasonText r) }

/-- Modelled from the spec: the route-planning options of section 4.5. -/
structure PlanOptions where
  optimizeForTime : Bool
  avoidMajorRoads : Bool
  alternatives : Bool
deriving DecidableEq, Repr

/-- Modelled from the spec: a route query as raw coordinates. -/
structure RouteQuery where
  originLat : ℚ
  originLng : ℚ
  destLat : ℚ
  destLng : ℚ
deriving DecidableEq, Repr

/-- Modelled from the spec: weight clamped into `[1, maxCongestionMultiplier]`
before it scales the free-flow cost — free-flow is the floor. -/
def clampWeight (maxMult w : ℚ) : ℚ := max 1 (min maxMult w)

/-- Modelled from the spec: effective edge cost
`freeFlowCost * clamp(weight, 1.0, maxCongestionMultiplier)`. -/
def effectiveCost (maxMult : ℚ) (e : Edge) (w : ℚ) : ℚ :=
  e.freeFlowCost * clampWeight maxMult w

/-- Modelled from the spec: the per-edge cost after applying the options —
`optimize_for` selects travel time (weighted) or distance, and
`avoid_major_roads` scales major roads by a configurable penalty. -/
def edgeCost (cfg : Config) (opts : PlanOptions) (e : Edge) (w : ℚ) : ℚ :=
  let base := if opts.optimizeForTime then effectiveCost cfg.maxCongestionMultiplier e w
              else e.length
  if opts.avoidMajorRoads && e.isMajor then base * cfg.avoidPenalty else base

/-- Modelled from the spec: whether an edge-index sequence is a path through
the graph from `o` to `d` (spec section 8, contiguous-path property). -/
def chain (g : Graph) (o : ℕ) (p : List ℕ) (d : ℕ) : Bool :=
  match p with
  | [] => o == d
  | i :: is =>
    match g.edges.get? i with
    | some e => (e.src == o) && chain g e.dst is d
    | none => false

/-- Modelled from the spec: bounded exhaustive enumeration of candidate paths
(edge-index sequences of length at most `fuel`) from `o` to `d`; the search
engine draws its candidates from here. -/
def pathsFrom (g : Graph) : ℕ → ℕ → ℕ → List (List ℕ)
  | 0, o, d => if o == d then [[]] else []
  | fuel + 1, o, d =>
    (if o == d then [[]] else []) ++
      (List.range g.edges.length).flatMap (fun i =>
        match g.edges.get? i with
        | some e => if e.src == o then (pathsFrom g fuel e.dst d).map (fun p => i :: p) else []
        | none => [])

/-- Total cost of a path under a per-edge-index cost function. -/
def pathCostF (costFn : ℕ → ℚ) (p : List ℕ) : ℚ := (p.map costFn).sum

/-- Total rendering distance of a path. -/
def pathDistance (g : Graph) (p : List ℕ) : ℚ :=
  (p.map (fun i => ((g.edges.get? i).map Edge.length).getD 0)).sum

/-- Modelled from the spec: the cost function the search uses, reading each
edge's weight from the snapshot by its live-weight slot (edge index). -/
def baseCostFn (g : Graph) (cfg : Config) (opts : PlanOptions) (wt : ℕ → ℚ) : ℕ → ℚ :=
  fun i =>
    match g.edges.get? i with
    | some e => edgeCost cfg opts e (wt i)
    | none => 0

/-- Modelled from the spec: deterministic comparison of candidate paths —
lower cost first, ties broken by fewer edges, then by lower total distance. -/
def better (g : Graph) (costFn : ℕ → ℚ) (p q : List ℕ) : Bool :=
  if pathCostF costFn p < pathCostF costFn q then true
  else if pathCostF costFn q < pathCostF costFn p then false
  else if p.length < q.length then true
  else if q.length < p.length then false
  else decide (pathDistance g p < pathDistance g q)

/-- Modelled from the spec: select the best candidate path under the
deterministic ordering; `none` exactly when there is no candidate. -/
def selectBest (g : Graph) (costFn : ℕ → ℚ) (cands : List (List ℕ)) : Option (List ℕ) :=
  cands.foldl
    (fun best p =>
      match best with
      | none => some p
      | some b => if better g costFn p b then some p else some b)
    none

/-- Modelled from the spec: the Route Search Engine.  It explores candidate
paths within the expanded-node budget; with a budget covering the whole graph
an empty result is a definitive `NoRouteFound`, otherwise the search aborts as
`RouteSearchTimeout` (section 5, cancellation). -/
def searchRoute (g : Graph) (costFn : ℕ → ℚ) (o d : ℕ) (budget : ℕ) :
    Except ErrorReason (List ℕ) :=
  let fuel := min budget g.nodes.length
  match selectBest g costFn (pathsFrom g fuel o d) with
  | some p => .ok p
  | none => .error (if g.nodes.length ≤ budget then .noRouteFound else .routeSearchTimeout)

/-- Squared coordinate distance used by nearest-node snapping. -/
def sqDist (lat1 lng1 lat2 lng2 : ℚ) : ℚ :=
  (lat1 - lat2) ^ 2 + (lng1 - lng2) ^ 2

/-- Modelled from the spec: `NearestNode` — the node id minimizing squared
coordinate distance, together with that distance (first node wins ties). -/
def nearestNode (g : Graph) (lat lng : ℚ) : Option (ℕ × ℚ) :=
  g.nodes.foldl
    (fun best n =>
      let d := sqDist lat lng n.lat n.lng
      match best with
      | none => some (n.id, d)
      | some (bid, bd) => if d < bd then some (n.id, d) else some (bid, bd))
    none

/-- Modelled from the spec: coordinate resolution with the maximum snap
distance; beyond it the location is outside network coverage. -/
def resolve (g : Graph) (cfg : Config) (lat lng : ℚ) : Except ErrorReason ℕ :=
  match nearestNode g lat lng with
  | none => .error .unresolvableLocation
  | some (nid, d) => if d ≤ cfg.maxSnapSq then .ok nid else .error .unresolvableLocation

/-- Modelled from the spec: penalize the edges of an already-chosen path
(`cost *= penaltyFactor`) to obtain a meaningfully different alternative. -/
def penalize (cfg : Config) (p1 : List ℕ) (costFn : ℕ → ℚ) : ℕ → ℚ :=
  fun i => if p1.contains i then costFn i * cfg.penaltyFactor else costFn i

/-- Modelled from the spec: assemble the externally consumable route record. -/
def mkRoute (g : Graph) (wt : ℕ → ℚ) (costFn : ℕ → ℚ) (p : List ℕ) : Route :=
  { edgeIds := p
    totalCost := pathCostF costFn p
    totalDistance := pathDistance g p
    congestionBreakdown := p.map (fun i => (i, wt i)) }

/-- Modelled from the spec: the Query Coordinator's `PlanRoute` — resolve both
coordinates, read the weight snapshot `wt`, run the search, and format the
result; the absent backend is reconstructed from spec sections 4.4–4.5.  The
ambient wall-clock `now` and random seed `seed` of the runtime environment are
passed explicitly so that (non-)dependence on them is expressible; the
specification makes route planning a pure function of query and snapshot, so
they are never consulted. -/
def planRoute (g : Graph) (cfg : Config) (wt : ℕ → ℚ) (opts : PlanOptions)
    (q : RouteQuery) (budget : ℕ) (now : ℚ) (seed : ℕ) : PlanResult :=
  match resolve g cfg q.originLat q.originLng with
  | .error r => .error r
  | .ok oN =>
    match resolve g cfg q.destLat q.destLng with
    | .error r => .error r
    | .ok dN =>
      let costFn := baseCostFn g cfg opts wt
      match searchRoute g costFn oN dN budget with
      | .error r => .error r
      | .ok p =>
        let alts :=
          if opts.alternatives then
            match selectBest g (penalize cfg p costFn) (pathsFrom g (min budget g.nodes.length) oN dN) with
            | some p2 => if p2 = p then [] else [mkRoute g wt (penalize cfg p costFn) p2]
            | none => []
          else []
        .ok (mkRoute g wt costFn p) alts

/-- Minimum of a list of rationals, `none` on the empty list. -/
def listMin : List ℚ → Option ℚ
  | [] => none
  | x :: xs =>
    match listMin xs with
    | none => some x
    | some m => some (min x m)

/-- Modelled from the spec: the costs of all candidate routes from `o` to `d`
that traverse the edge with index `j`, under snapshot `wt`. -/
def costsThrough (g : Graph) (cfg : Config) (opts : PlanOptions) (wt : ℕ → ℚ)
    (fuel o d j : ℕ) : List ℚ :=
  ((pathsFrom g fuel o d).filter (fun p => p.contains j)).map
    (pathCostF (baseCostFn g cfg opts wt))

end Engine

section ListHelpers

variable {α : Type _} {β : Type _}

theorem findIndex_eq_none_iff {p : α → Bool} {l : List α} :
    findIndex p l = none ↔ ∀ x ∈ l, p x = false := by
  induction l with
  | nil => simp [findIndex]
  | cons x xs ih =>
    by_cases h : p x
    · simp [findIndex, h]
    · simp [findIndex, h, ih]

theorem findIndex_some_spec {p : α → Bool} :
    ∀ {l : List α} {i : ℕ}, findIndex p l = some i →
      ∃ h : i < l.length, p (l.get ⟨i, h⟩) = true := by
  intro l
  induction l with
  | nil => intro i h; simp [findIndex] at h
  | cons x xs ih =>
    intro i h
    by_cases hx : p x
    · simp [findIndex, hx] at h
      subst h
      exact ⟨by simp, by simpa using hx⟩
    · simp [findIndex, hx] at h
      obtain ⟨j, hj, rfl⟩ := h
      obtain ⟨hlt, hp⟩ := ih hj
      exact ⟨by simpa using Nat.succ_lt_succ hlt, by simpa using hp⟩

theorem list_set_get_self :
    ∀ (l : List α) (i : ℕ) (h : i < l.length), l.set i (l.get ⟨i, h⟩) = l := by
  intro l
  induction l with
  | nil => intro i h; simp at h
  | cons x xs ih =>
    intro i h
    cases i with
    | zero => simp
    | succ j => simpa using ih j (by simpa using h)

end ListHelpers

/-- The entry looked up by the incoming point's key after an update is exactly
the incoming point: the context performs a wholesale overwrite or append. -/
theorem find_updateTrafficPoint (prev : List TrafficData) (pt : TrafficData) :
    (updateTrafficPoint prev pt).find?
      (fun p => p.road_segment_id == pt.road_segment_id) = some pt := by
  induction prev with
  | nil => simp [updateTrafficPoint, findIndex, List.find?]
  | cons x xs ih =>
    by_cases h : x.road_segment_id = pt.road_segment_id
    · simp [updateTrafficPoint, findIndex, h, List.find?]
    · have hx : (x.road_segment_id == pt.road_segment_id) = false := by
        simpa using h
      rcases hfi : findIndex (fun p => p.road_segment_id == pt.road_segment_id) xs with _ | i
      · have hxs : updateTrafficPoint xs pt = xs ++ [pt] := by
          simp [updateTrafficPoint, hfi]
        have := ih
        rw [hxs] at this
        simpa [updateTrafficPoint, findIndex, hx, hfi, List.find?] using this
      · have hxs : updateTrafficPoint xs pt = xs.set i pt := by
          simp [updateTrafficPoint, hfi]
        have := ih
        rw [hxs] at this
        simpa [updateTrafficPoint, findIndex, hx, hfi, List.find?] using this

/-- With pairwise-distinct keys, an update whose key occurs at position `i`
rewrites exactly that position. -/
theorem updateTrafficPoint_set_of_key_eq :
    ∀ (prev : List TrafficData) (pt : TrafficData),
      (prev.map TrafficData.road_segment_id).Nodup →
      ∀ (i : ℕ) (hi : i < prev.length),
        (prev.get ⟨i, hi⟩).road_segment_id = pt.road_segment_id →
        updateTrafficPoint prev pt = prev.set i pt := by
  intro prev
  induction prev with
  | nil => intro pt _ i hi; simp at hi
  | cons x xs ih =>
    intro pt hnd i hi hkey
    cases i with
    | zero =>
      have hx : (x.road_segment_id == pt.road_segment_id) = true := by
        simpa using hkey
      simp [updateTrafficPoint, findIndex, hx]
    | succ j =>
      have hj : j < xs.length := by simpa using hi
      have hkey' : (xs.get ⟨j, hj⟩).road_segment_id = pt.road_segment_id := by
        simpa using hkey
      have hmem : pt.road_segment_id ∈ xs.map TrafficData.road_segment_id := by
        rw [← hkey']
        exact List.mem_map.mpr ⟨xs.get ⟨j, hj⟩, xs.get_mem _ _, rfl⟩
      have hnd' : (xs.map TrafficData.road_segment_id).Nodup := by
        simpa using hnd.of_cons
      have hxne : x.road_segment_id ≠ pt.road_segment_id := by
        have hnd2 := hnd
        simp [List.nodup_cons] at hnd2
        intro hcontra
        exact hnd2.1 (xs.get ⟨j, hj⟩) (xs.get_mem _ _) (hkey'.trans hcontra.symm)
      have hx : (x.road_segment_id == pt.road_segment_id) = false := by
        simpa using hxne
      have ihx := ih pt hnd' j hj hkey'
      rcases hfi : findIndex (fun p => p.road_segment_id == pt.road_segment_id) xs with _ | k
      · have habs : updateTrafficPoint xs pt = xs ++ [pt] := by
          simp [updateTrafficPoint, hfi]
        rw [habs] at ihx
        have hlen := congrArg List.length ihx
        simp at hlen
      · have hset : updateTrafficPoint xs pt = xs.set k pt := by
          simp [updateTrafficPoint, hfi]
        have hcons : updateTrafficPoint (x :: xs) pt = x :: xs.set k pt := by
          simp [updateTrafficPoint, findIndex, hx, hfi]
        rw [hcons, ← hset, ihx]
        rfl

/-- C9: on a store whose entries carry pairwise-distinct `road_segment_id`
keys, `updateTrafficPoint` keeps the keys pairwise distinct; when an entry with
the incoming point's key exists at position `i` the update rewrites exactly
position `i` (all other entries unchanged in value and position), and when no
entry matches the point is appended at the end. -/
theorem updateTrafficPoint_distinct_spec (prev : List TrafficData) (pt : TrafficData)
    (hnd : (prev.map TrafficData.road_segment_id).Nodup) :
    ((updateTrafficPoint prev pt).map TrafficData.road_segment_id).Nodup ∧
    ((∀ e ∈ prev, e.road_segment_id ≠ pt.road_segment_id) →
      updateTrafficPoint prev pt = prev ++ [pt]) ∧
    (∀ (i : ℕ) (hi : i < prev.length),
      (prev.get ⟨i, hi⟩).road_segment_id = pt.road_segment_id →
      updateTrafficPoint prev pt = prev.set i pt) := by
  refine ⟨?_, ?_, ?_⟩
  · rcases hfi : findIndex (fun p => p.road_segment_id == pt.road_segment_id) prev with _ | i
    · have h1 : updateTrafficPoint prev pt = prev ++ [pt] := by
        simp [updateTrafficPoint, hfi]
      have hnm : ∀ x ∈ prev, x.road_segment_id ≠ pt.road_segment_id := by
        intro x hx
        have := findIndex_eq_none_iff.mp hfi x hx
        simpa using this
      rw [h1, List.map_append, List.nodup_append]
      refine ⟨hnd, by simp, ?_⟩
      intro a ha hb
      simp at hb
      obtain ⟨e, he, hkey⟩ := List.mem_map.mp ha
      exact hnm e he (by rw [hkey, hb])
    · obtain ⟨hi, hp⟩ := findIndex_some_spec hfi
      have h1 : updateTrafficPoint prev pt = prev.set i pt := by
        simp [updateTrafficPoint, hfi]
      have hkey : (prev.get ⟨i, hi⟩).road_segment_id = pt.road_segment_id := by
        simpa using hp
      have hset : (prev.map TrafficData.road_segment_id).set i pt.road_segment_id
          = prev.map TrafficData.road_segment_id := by
        rw [← hkey]
        have hgi : (prev.map TrafficData.road_segment_id).get ⟨i, by simpa using hi⟩
            = (prev.get ⟨i, hi⟩).road_segment_id := by
          simp
        rw [← hgi]
        exact list_set_get_self _ i (by simpa using hi)
      rw [h1, List.map_set, hset]
      exact hnd
  · intro hne
    have hfi : findIndex (fun p => p.road_segment_id == pt.road_segment_id) prev = none :=
      findIndex_eq_none_iff.mpr (fun x hx => by simpa using hne x hx)
    simp [updateTrafficPoint, hfi]
  · intro i hi hkey
    exact updateTrafficPoint_set_of_key_eq prev pt hnd i hi hkey

/-- A two-entry store with distinct segment keys, for concrete evaluation. -/
def twoStore : List TrafficData :=
  [⟨"CT_001", -339, 184, 40, 0.3, 0⟩, ⟨"CT_002", -338, 185, 60, 0.5, 0⟩]

/-- An incoming point for the second entry of `twoStore`. -/
def ptTwo : TrafficData := ⟨"CT_002", -338, 185, 25, 0.8, 60⟩

/-- Witness for C9 at a concrete store: the hypotheses hold and the matched
entry is replaced in place. -/
theorem updateTrafficPoint_distinct_witness :
    (twoStore.map TrafficData.road_segment_id).Nodup ∧
    updateTrafficPoint twoStore ptTwo = twoStore.set 1 ptTwo :=
  ⟨by decide,
    (updateTrafficPoint_distinct_spec twoStore ptTwo (by decide)).2.2 1 (by decide) (by decide)⟩

/-- C1 (amended): the ingestion fold is a wholesale replacement — after
`updateTrafficPoint`, the entry stored under the incoming point's segment key
is exactly the incoming point, so the new weight equals the observed weight and
the prior weight and elapsed time play no role. -/
theorem updateTrafficPoint_newWeight_eq_observed (prev : List TrafficData)
    (pt : TrafficData) (now : ℚ) :
    observedCongestion (updateTrafficPoint prev pt) now pt.road_segment_id =
      some pt.congestion_level := by
  unfold observedCongestion
  rw [find_updateTrafficPoint prev pt]
  rfl

/-- A one-entry store whose entry has congestion weight 2 at time 0. -/
def prevEMA : List TrafficData := [⟨"CT_001", -339, 184, 30, 2, 0⟩]

/-- An incoming reading for the same segment: observed weight 1 at time 300. -/
def ptEMA : TrafficData := ⟨"CT_001", -339, 184, 30, 1, 300⟩

/-- Counterexample to C1 as stated: folding the observed weight 1 into a store
holding weight 2, with Δt = 300 and halfLife = 300, yields stored weight 1 —
not the exponential moving average `exp(-300/300)*2 + (1-exp(-300/300))*1`,
which exceeds 1 because `exp` is strictly positive. -/
theorem updateTrafficPoint_not_ema :
    observedCongestion (updateTrafficPoint prevEMA ptEMA) 300 "CT_001" = some 1 ∧
    ((1 : ℝ) ≠ Real.exp (-(300 / 300)) * 2 + (1 - Real.exp (-(300 / 300))) * 1) := by
  constructor
  · rfl
  · intro h
    have hpos := Real.exp_pos (-(300 / 300) : ℝ)
    nlinarith

/-- C6 (amended): the store applies no time decay on read — the congestion
value observed for a segment is independent of the snapshot instant, so an
entry receiving no new samples keeps its last written value indefinitely. -/
theorem observedCongestion_time_invariant (store : List TrafficData)
    (seg : String) (now later : ℚ) :
    observedCongestion store now seg = observedCongestion store later seg := rfl

/-- A store whose single entry was written at time 0 with weight 3. -/
def staleStore : List TrafficData := [⟨"CT_001", -339, 184, 20, 3, 0⟩]

/-- Counterexample to C6 as stated: with halfLife = 300, the entry last updated
at time 0 is read at time 3000 — more than `2*halfLife` later — yet the
observed weight is still 3, not within even a generous epsilon of 1/2 of the
free-flow baseline 1. -/
theorem observedCongestion_stale_frozen :
    (2 * 300 < (3000 : ℚ) - 0) ∧
    observedCongestion staleStore 3000 "CT_001" = some 3 ∧
    ¬(|(3 : ℚ) - 1| ≤ 1 / 2) := by
  refine ⟨by norm_num, rfl, by rw [abs_of_nonneg (by norm_num)]; norm_num⟩

/-- C8 (amended): the context performs no validation — a reading whose
timestamp falls outside any staleness window, or whose speed is negative, is
still folded into the store as-is rather than dropped. -/
theorem updateTrafficPoint_no_validation (prev : List TrafficData) (pt : TrafficData)
    (window now : ℚ)
    (hinvalid : pt.timestamp < now - window ∨ pt.flow_speed < 0) :
    (updateTrafficPoint prev pt).find?
      (fun p => p.road_segment_id == pt.road_segment_id) = some pt :=
  find_updateTrafficPoint prev pt

/-- A reading with physically impossible (negative) speed. -/
def ptBad : TrafficData := ⟨"CT_099", -339, 184, -5, 0.5, 0⟩

/-- Counterexample to C8 as stated: the negative-speed reading is not dropped —
applying it to the empty store changes the store, which now contains it. -/
theorem updateTrafficPoint_accepts_invalid :
    ptBad.flow_speed < 0 ∧
    updateTrafficPoint [] ptBad = [ptBad] ∧
    updateTrafficPoint [] ptBad ≠ [] := by
  refine ⟨by norm_num [ptBad], rfl, by simp [updateTrafficPoint, findIndex]⟩

/-- Witness for C8's amended theorem at the concrete invalid reading. -/
theorem updateTrafficPoint_no_validation_witness :
    (ptBad.flow_speed < 0 ∨ (0:ℚ) < 0 - 0) ∧
    (updateTrafficPoint [] ptBad).find?
      (fun p => p.road_segment_id == ptBad.road_segment_id) = some ptBad :=
  ⟨Or.inl (by norm_num [ptBad]),
    updateTrafficPoint_no_validation [] ptBad 0 0 (Or.inr (by norm_num [ptBad]))⟩

/-- C2 (amended): the user-visible congestion colours are derived per traffic
point from its congestion-level fraction with thresholds 0.3 and 0.6 (light
below 0.3, moderate below 0.6, heavy otherwise), while the route-level label is
the backend's `traffic_conditions` string mapped to the same palette with a
grey default. -/
theorem getTrafficColor_thresholds (c : ℚ) :
    (c < 0.3 → TrafficMap.getTrafficColor c = "#4CAF50") ∧
    (0.3 ≤ c → c < 0.6 → TrafficMap.getTrafficColor c = "#FF9800") ∧
    (0.6 ≤ c → TrafficMap.getTrafficColor c = "#F44336") ∧
    RoutePlanner.getTrafficColor (some "light") = "#4CAF50" ∧
    RoutePlanner.getTrafficColor (some "moderate") = "#FF9800" ∧
    RoutePlanner.getTrafficColor (some "heavy") = "#F44336" ∧
    RoutePlanner.getTrafficColor none = "#757575" := by
  refine ⟨?_, ?_, ?_, rfl, rfl, rfl, rfl⟩
  · intro h
    simp [TrafficMap.getTrafficColor, h]
  · intro h1 h2
    simp [TrafficMap.getTrafficColor, h2, not_lt.mpr h1]
  · intro h
    have h1 : ¬ c < 0.3 := not_lt.mpr (le_trans (by norm_num) h)
    simp [TrafficMap.getTrafficColor, h1, not_lt.mpr h]

/-- Witness for C2's amended theorem at congestion level 0.45: the moderate
band applies. -/
theorem getTrafficColor_thresholds_witness :
    ((0.3 : ℚ) ≤ 0.45) ∧ ((0.45 : ℚ) < 0.6) ∧
    TrafficMap.getTrafficColor 0.45 = "#FF9800" :=
  ⟨by norm_num, by norm_num,
    (getTrafficColor_thresholds 0.45).2.1 (by norm_num) (by norm_num)⟩

/-- Counterexample to C2 as stated: an average weight of 0.5 is below the
claimed light threshold 1.3, yet the code colours it as moderate, not light. -/
theorem getTrafficColor_not_weight_thresholds :
    ((0.5 : ℚ) < 1.3) ∧ TrafficMap.getTrafficColor 0.5 ≠ "#4CAF50" := by
  have h : TrafficMap.getTrafficColor 0.5 = "#FF9800" := by
    norm_num [TrafficMap.getTrafficColor]
  refine ⟨by norm_num, ?_⟩
  rw [h]
  decide

/-- C3 (amended): each prediction update clamps the congestion value into
`[0.1, 0.9]` via `max(0.1, min(0.9, current + change))`; the stored value is a
0–1 congestion fraction that is always at most 0.9 — in particular below 1.0 —
and no free-flow-cost multiplication with a ≥ 1 clamp occurs in the code. -/
theorem predictedCongestion_clamped (cur change : ℚ) :
    0.1 ≤ PredictionDashboard.predictedCongestion cur change ∧
    PredictionDashboard.predictedCongestion cur change ≤ 0.9 ∧
    PredictionDashboard.predictedCongestion cur change =
      max 0.1 (min 0.9 (cur + change)) :=
  ⟨le_max_left _ _, max_le (by norm_num) (min_le_left _ _), rfl⟩

/-- Counterexample to C3 as stated: the weight update at current congestion 0.5
and change 0.2 stores 0.7, a multiplier strictly below the claimed floor 1.0. -/
theorem predictedCongestion_below_one :
    PredictionDashboard.predictedCongestion 0.5 0.2 = 0.7 ∧
    ¬((1 : ℚ) ≤ PredictionDashboard.predictedCongestion 0.5 0.2) := by
  have h : PredictionDashboard.predictedCongestion 0.5 0.2 = 0.7 := by
    rw [PredictionDashboard.predictedCongestion]
    rw [min_eq_right (by norm_num), max_eq_right (by norm_num)]
    norm_num
  exact ⟨h, by rw [h]; norm_num⟩

/-- C10: for non-negative seconds, `formatTime` renders `m min` with
`m = round(seconds/60)` whenever `m < 60`, and otherwise `h`h` `r`m` with
`h = ⌊m/60⌋` and `r = m mod 60`, where the rendered minutes component
satisfies `0 ≤ r < 60` and `60*h + r = m`. -/
theorem formatTime_spec (seconds : ℚ) (hsec : 0 ≤ seconds) :
    (RoutePlanner.jsRound (seconds / 60) < 60 →
      RoutePlanner.formatTime seconds =
        toString (RoutePlanner.jsRound (seconds / 60)) ++ " min") ∧
    (60 ≤ RoutePlanner.jsRound (seconds / 60) →
      RoutePlanner.formatTime seconds =
        toString (⌊(RoutePlanner.jsRound (seconds / 60) : ℚ) / 60⌋) ++ "h " ++
          toString (RoutePlanner.jsRound (seconds / 60) % 60) ++ "m" ∧
      0 ≤ RoutePlanner.jsRound (seconds / 60) % 60 ∧
      RoutePlanner.jsRound (seconds / 60) % 60 < 60 ∧
      60 * ⌊(RoutePlanner.jsRound (seconds / 60) : ℚ) / 60⌋ +
        RoutePlanner.jsRound (seconds / 60) % 60 =
        RoutePlanner.jsRound (seconds / 60)) := by
  constructor
  · intro hm
    simp [RoutePlanner.formatTime, hm]
  · intro hm
    have hnot : ¬ RoutePlanner.jsRound (seconds / 60) < 60 := not_lt.mpr hm
    refine ⟨by simp [RoutePlanner.formatTime, hnot], Int.emod_nonneg _ (by norm_num),
      Int.emod_lt_of_pos _ (by norm_num), ?_⟩
    have hfloor : ⌊(RoutePlanner.jsRound (seconds / 60) : ℚ) / 60⌋ =
        RoutePlanner.jsRound (seconds / 60) / 60 := by
      have := Rat.floor_intCast_div_natCast (RoutePlanner.jsRound (seconds / 60)) 60
      simpa using this
    rw [hfloor]
    exact Int.ediv_add_emod _ _

/-- Witness for C10 at 3900 seconds: 65 rounded minutes render as `1h 5m`. -/
theorem formatTime_spec_witness :
    (0 ≤ (3900 : ℚ)) ∧ 60 ≤ RoutePlanner.jsRound ((3900 : ℚ) / 60) ∧
    RoutePlanner.formatTime 3900 =
      toString (⌊(RoutePlanner.jsRound ((3900 : ℚ) / 60) : ℚ) / 60⌋) ++ "h " ++
        toString (RoutePlanner.jsRound ((3900 : ℚ) / 60) % 60) ++ "m" := by
  have hm : RoutePlanner.jsRound ((3900 : ℚ) / 60) = 65 := by
    rw [RoutePlanner.jsRound]
    norm_num
  refine ⟨by norm_num, by rw [hm]; norm_num,
    ((formatTime_spec 3900 (by norm_num)).2 (by rw [hm]; norm_num)).1⟩

namespace Engine

/-- Every candidate produced by the bounded enumeration is an actual path. -/
theorem pathsFrom_sound (g : Graph) :
    ∀ (fuel o d : ℕ) (p : List ℕ), p ∈ pathsFrom g fuel o d → chain g o p d = true := by
  intro fuel
  induction fuel with
  | zero =>
    intro o d p hp
    simp only [pathsFrom] at hp
    by_cases h : o = d
    · simp [h] at hp
      subst hp
      simp [chain, h]
    · simp [h] at hp
  | succ fuel ih =>
    intro o d p hp
    simp only [pathsFrom, List.mem_append] at hp
    rcases hp with hp | hp
    · by_cases h : o = d
      · simp [h] at hp
        subst hp
        simp [chain, h]
      · simp [h] at hp
    · rw [List.mem_flatMap] at hp
      obtain ⟨i, hi, hp⟩ := hp
      rcases hget : g.edges.get? i with _ | e
      · rw [hget] at hp
        simp at hp
      · rw [hget] at hp
        by_cases hsrc : e.src = o
        · simp [hsrc] at hp
          obtain ⟨q, hq, rfl⟩ := hp
          simp only [chain]
          rw [hget]
          simp [hsrc]
          exact ih e.dst d q hq
        · simp [hsrc] at hp

theorem selectBest_fold_some (g : Graph) (costFn : ℕ → ℚ) :
    ∀ (l : List (List ℕ)) (b : List ℕ),
      ∃ q, l.foldl
        (fun best p =>
          match best with
          | none => some p
          | some b2 => if better g costFn p b2 then some p else some b2)
        (some b) = some q := by
  intro l
  induction l with
  | nil => intro b; exact ⟨b, rfl⟩
  | cons p l ih =>
    intro b
    by_cases h : better g costFn p b
    · simpa [h] using ih p
    · simpa [h] using ih b

/-- The deterministic selection fails exactly on an empty candidate list. -/
theorem selectBest_eq_none_iff (g : Graph) (costFn : ℕ → ℚ) (cands : List (List ℕ)) :
    selectBest g costFn cands = none ↔ cands = [] := by
  cases cands with
  | nil => simp [selectBest]
  | cons c cs =>
    simp only [selectBest, List.foldl_cons]
    obtain ⟨q, hq⟩ := selectBest_fold_some g costFn cs c
    simp [hq]

/-- The search reports `NoRouteFound` exactly when the full-graph enumeration
is empty and the budget covered the whole graph. -/
theorem searchRoute_eq_noRouteFound_iff (g : Graph) (costFn : ℕ → ℚ) (o d budget : ℕ) :
    searchRoute g costFn o d budget = .error .noRouteFound ↔
      (pathsFrom g (min budget g.nodes.length) o d = [] ∧ g.nodes.length ≤ budget) := by
  rcases hsb : selectBest g costFn (pathsFrom g (min budget g.nodes.length) o d) with _ | p
  · have hempty := (selectBest_eq_none_iff g costFn _).mp hsb
    simp only [searchRoute]
    rw [hsb]
    by_cases hb : g.nodes.length ≤ budget
    · rw [min_eq_right hb] at hempty
      simp [hb, hempty]
    · simp [hb, hempty]
  · simp only [searchRoute]
    rw [hsb]
    have hne : pathsFrom g (min budget g.nodes.length) o d ≠ [] := by
      intro hcontra
      rw [hcontra] at hsb
      simp [selectBest] at hsb
    simp [hne]

end Engine

/-- C4: when both endpoints resolve to nodes but no path of any length joins
them (disconnected components), `planRoute` fails with the typed
`NoRouteFound`; the failure — like every query-time failure — surfaces as the
structured status/reason wire value, never as an exception (the result type
admits no other outcome). -/
theorem planRoute_disconnected (g : Engine.Graph) (cfg : Engine.Config)
    (wt : ℕ → ℚ) (opts : Engine.PlanOptions) (q : Engine.RouteQuery)
    (budget : ℕ) (now : ℚ) (seed : ℕ) (oN dN : ℕ)
    (ho : Engine.resolve g cfg q.originLat q.originLng = .ok oN)
    (hd : Engine.resolve g cfg q.destLat q.destLng = .ok dN)
    (hnopath : ∀ p, Engine.chain g oN p dN = false)
    (hbudget : g.nodes.length ≤ budget) :
    Engine.planRoute g cfg wt opts q budget now seed =
      Engine.PlanResult.error .noRouteFound ∧
    Engine.toWire (Engine.planRoute g cfg wt opts q budget now seed) =
      ⟨"error", some "no drivable path found"⟩ ∧
    (∀ r : Engine.ErrorReason,
      Engine.toWire (.error r) = ⟨"error", some (Engine.reasonText r)⟩) := by
  have hempty : Engine.pathsFrom g (min budget g.nodes.length) oN dN = [] := by
    rw [List.eq_nil_iff_forall_not_mem]
    intro p hp
    have hc := Engine.pathsFrom_sound g _ oN dN p hp
    rw [hnopath p] at hc
    exact Bool.false_ne_true hc
  have hs : Engine.searchRoute g (Engine.baseCostFn g cfg opts wt) oN dN budget =
      .error .noRouteFound :=
    (Engine.searchRoute_eq_noRouteFound_iff g _ oN dN budget).mpr ⟨hempty, hbudget⟩
  have hmain : Engine.planRoute g cfg wt opts q budget now seed =
      Engine.PlanResult.error .noRouteFound := by
    simp [Engine.planRoute, ho, hd, hs]
  exact ⟨hmain, by rw [hmain]; rfl, fun r => rfl⟩

/-- A two-node network with no edges: two disconnected components. -/
def gDisc : Engine.Graph := ⟨[⟨0, 0, 0⟩, ⟨1, 10, 10⟩], []⟩

/-- A configuration with 5-minute half-life, congestion cap 3, generous snap
distance, penalty factor 2, 10-minute staleness window, avoidance penalty 4. -/
def cfgW : Engine.Config := ⟨300, 3, 1000, 2, 600, 4⟩

/-- Time-optimizing options without alternatives. -/
def optsW : Engine.PlanOptions := ⟨true, false, false⟩

/-- A query from one component of `gDisc` to the other. -/
def qDisc : Engine.RouteQuery := ⟨0, 0, 10, 10⟩

/-- Witness for C4 on the concrete disconnected network. -/
theorem planRoute_disconnected_witness :
    Engine.planRoute gDisc cfgW (fun _ => 1) optsW qDisc 10 0 0 =
      Engine.PlanResult.error .noRouteFound :=
  (planRoute_disconnected gDisc cfgW (fun _ => 1) optsW qDisc 10 0 0 0 1
    (by norm_num [Engine.resolve, Engine.nearestNode, Engine.sqDist, gDisc, cfgW, qDisc])
    (by norm_num [Engine.resolve, Engine.nearestNode, Engine.sqDist, gDisc, cfgW, qDisc])
    (fun p => by cases p <;> rfl)
    (by norm_num [gDisc])).1

/-- C5: `planRoute` is a deterministic function of the network, configuration,
weight snapshot, options, query and budget: the ambient wall-clock and random
seed do not influence the result, so two runs against the same snapshot with
no intervening ingestion return the identical route and cost. -/
theorem planRoute_deterministic (g : Engine.Graph) (cfg : Engine.Config)
    (wt : ℕ → ℚ) (opts : Engine.PlanOptions) (q : Engine.RouteQuery) (budget : ℕ)
    (now1 now2 : ℚ) (seed1 seed2 : ℕ) :
    Engine.planRoute g cfg wt opts q budget now1 seed1 =
      Engine.planRoute g cfg wt opts q budget now2 seed2 := rfl

namespace Engine

theorem clampWeight_mono (maxMult : ℚ) {w w' : ℚ} (h : w ≤ w') :
    clampWeight maxMult w ≤ clampWeight maxMult w' :=
  max_le_max le_rfl (min_le_min le_rfl h)

theorem edgeCost_mono (cfg : Config) (opts : PlanOptions) (e : Edge)
    (hf : 0 ≤ e.freeFlowCost) (hpen : 0 ≤ cfg.avoidPenalty) {w w' : ℚ} (h : w ≤ w') :
    edgeCost cfg opts e w ≤ edgeCost cfg opts e w' := by
  unfold edgeCost
  have hbase :
      (if opts.optimizeForTime then effectiveCost cfg.maxCongestionMultiplier e w
        else e.length) ≤
      (if opts.optimizeForTime then effectiveCost cfg.maxCongestionMultiplier e w'
        else e.length) := by
    by_cases ho : opts.optimizeForTime
    · simp only [ho, if_true]
      exact mul_le_mul_of_nonneg_left (clampWeight_mono _ h) hf
    · simp [ho]
  by_cases hm : (opts.avoidMajorRoads && e.isMajor) = true
  · simp only [hm, if_true]
    exact mul_le_mul_of_nonneg_right hbase hpen
  · simp only [hm, if_false]
    exact hbase

theorem baseCostFn_mono (g : Graph) (cfg : Config) (opts : PlanOptions)
    {wt wt' : ℕ → ℚ} (hf : ∀ e ∈ g.edges, 0 ≤ e.freeFlowCost)
    (hpen : 0 ≤ cfg.avoidPenalty) (hw : ∀ i, wt i ≤ wt' i) (i : ℕ) :
    baseCostFn g cfg opts wt i ≤ baseCostFn g cfg opts wt' i := by
  show (match g.edges.get? i with
        | some e => edgeCost cfg opts e (wt i)
        | none => 0) ≤
      (match g.edges.get? i with
        | some e => edgeCost cfg opts e (wt' i)
        | none => 0)
  rcases hget : g.edges.get? i with _ | e
  · exact le_refl 0
  · exact edgeCost_mono cfg opts e (hf e (List.get?_mem hget)) hpen (hw i)

theorem pathCostF_mono {f g2 : ℕ → ℚ} (h : ∀ i, f i ≤ g2 i) (p : List ℕ) :
    pathCostF f p ≤ pathCostF g2 p :=
  List.sum_le_sum (fun i _ => h i)

theorem listMin_cons (x : ℚ) (xs : List ℚ) :
    listMin (x :: xs) =
      match listMin xs with
      | none => some x
      | some m => some (min x m) := rfl

/-- A pointwise cost bound transfers to the minima of the mapped lists. -/
theorem listMin_mono_of_pointwise :
    ∀ (l : List (List ℕ)) (f g2 : List ℕ → ℚ),
      (∀ p ∈ l, f p ≤ g2 p) → l ≠ [] →
      ∃ c c2, listMin (l.map f) = some c ∧ listMin (l.map g2) = some c2 ∧ c ≤ c2 := by
  intro l
  induction l with
  | nil => intro f g2 _ hne; exact absurd rfl hne
  | cons p l ih =>
    intro f g2 h hne
    cases l with
    | nil => exact ⟨f p, g2 p, rfl, rfl, h p (by simp)⟩
    | cons q l2 =>
      obtain ⟨c, c2, h1, h2, hle⟩ :=
        ih f g2 (fun r hr => h r (List.mem_cons_of_mem _ hr)) (by simp)
      refine ⟨min (f p) c, min (g2 p) c2, ?_, ?_, min_le_min (h p (by simp)) hle⟩
      · rw [List.map_cons, listMin_cons, h1]
      · rw [List.map_cons, listMin_cons, h2]

end Engine

/-- C7: increasing the weight of one edge while holding all other weights
fixed never decreases the minimum total cost over the candidate routes that
use that edge, and never turns a destination the search could reach into a
`NoRouteFound` outcome (reachability is independent of the weights). -/
theorem weight_increase_monotone (g : Engine.Graph) (cfg : Engine.Config)
    (opts : Engine.PlanOptions) (wt wt' : ℕ → ℚ) (j fuel o d budget : ℕ)
    (hf : ∀ e ∈ g.edges, 0 ≤ e.freeFlowCost)
    (hpen : 0 ≤ cfg.avoidPenalty)
    (hj : wt j ≤ wt' j)
    (hother : ∀ i, i ≠ j → wt' i = wt i) :
    (Engine.costsThrough g cfg opts wt fuel o d j ≠ [] →
      ∃ c c', Engine.listMin (Engine.costsThrough g cfg opts wt fuel o d j) = some c ∧
        Engine.listMin (Engine.costsThrough g cfg opts wt' fuel o d j) = some c' ∧
        c ≤ c') ∧
    (Engine.searchRoute g (Engine.baseCostFn g cfg opts wt) o d budget ≠
        Except.error Engine.ErrorReason.noRouteFound →
      Engine.searchRoute g (Engine.baseCostFn g cfg opts wt') o d budget ≠
        Except.error Engine.ErrorReason.noRouteFound) := by
  have hw : ∀ i, wt i ≤ wt' i := by
    intro i
    by_cases hij : i = j
    · subst hij; exact hj
    · rw [hother i hij]
  constructor
  · intro hne
    have hlne : ((Engine.pathsFrom g fuel o d).filter (fun p => p.contains j)) ≠ [] := by
      intro hcontra
      apply hne
      unfold Engine.costsThrough
      rw [hcontra]
      rfl
    exact Engine.listMin_mono_of_pointwise _ _ _
      (fun p _ => Engine.pathCostF_mono
        (fun i => Engine.baseCostFn_mono g cfg opts hf hpen hw i) p) hlne
  · intro h1 hcontra
    exact h1 ((Engine.searchRoute_eq_noRouteFound_iff g _ o d budget).mpr
      ((Engine.searchRoute_eq_noRouteFound_iff g _ o d budget).mp hcontra))

/-- A two-node network with a single edge 0 → 1 of free-flow cost 10. -/
def gOne : Engine.Graph := ⟨[⟨0, 0, 0⟩, ⟨1, 1, 0⟩], [⟨0, 1, 10, 5, false⟩]⟩

/-- The all-ones weight snapshot. -/
def wtA : ℕ → ℚ := fun _ => 1

/-- The snapshot with the weight of edge 0 raised to 2, all others 1. -/
def wtB : ℕ → ℚ := fun i => if i = 0 then 2 else 1

/-- Witness for C7 on the one-edge network: raising edge 0's weight from 1 to
2 keeps the best cost through edge 0 defined and non-decreasing. -/
theorem weight_increase_monotone_witness :
    ∃ c c', Engine.listMin (Engine.costsThrough gOne cfgW optsW wtA 2 0 1 0) = some c ∧
      Engine.listMin (Engine.costsThrough gOne cfgW optsW wtB 2 0 1 0) = some c' ∧
      c ≤ c' := by
  have hp : Engine.pathsFrom gOne 2 0 1 = [[0]] := by decide
  have hne : Engine.costsThrough gOne cfgW optsW wtA 2 0 1 0 ≠ [] := by
    intro hcontra
    unfold Engine.costsThrough at hcontra
    rw [hp] at hcontra
    simp [List.map_eq_nil_iff] at hcontra
  exact (weight_increase_monotone gOne cfgW optsW wtA wtB 0 2 0 1 10
    (by intro e he; simp [gOne] at he; subst he; norm_num)
    (by norm_num [cfgW])
    (by norm_num [wtA, wtB])
    (by intro i hi; simp [wtA, wtB, hi])).1 hne
